import Mathlib

/-!
Verification of the `dev_scripts` download engine
(`src/scripts/download/ms_downloader.py`) against its natural-language
specification.  The Python source is shallowly embedded below: pure helpers
become Lean functions, the stateful download loop becomes explicit state
passing, and network/filesystem effects are supplied through oracle
arguments (server scripts, page-fetch oracles).  Machine integers are
modelled as `Nat`/`Int` (no overflow is relevant: Python integers are
unbounded).  Fallible code returns `Option`/`Except`.
-/

namespace MsDownloader

/-! ## String helpers (Python `str` operations used by the source) -/

/-- Test that `pat` is a prefix of `l` (over characters; executable and
kernel-reducible, unlike the byte-level core `String` primitives). -/
def listIsPfx : List Char → List Char → Bool
  | [], _ => true
  | _ :: _, [] => false
  | a :: as, b :: bs => a == b && listIsPfx as bs

/-- Test that `pat` occurs as a contiguous substring of `l`. -/
def listHasInfix (pat : List Char) : List Char → Bool
  | [] => pat.isEmpty
  | a :: as => listIsPfx pat (a :: as) || listHasInfix pat as

/-- Python substring test `needle in hay`. -/
def strContains (hay needle : String) : Bool :=
  listHasInfix needle.data hay.data

/-- Python `s.startswith(pat)`. -/
def strStartsWith (s pat : String) : Bool :=
  listIsPfx pat.data s.data

/-- Python `s.endswith(pat)`. -/
def strEndsWith (s pat : String) : Bool :=
  listIsPfx pat.data.reverse s.data.reverse

/-- Python `s.split(sep)` for a one-character separator (as in
`cr.split("/")`): splitting the empty string yields `[""]`, and every
separator occurrence opens a new piece. -/
def splitOnChar (c : Char) : List Char → List (List Char)
  | [] => [[]]
  | a :: as =>
    let r := splitOnChar c as
    if a == c then [] :: r
    else
      match r with
      | [] => [[a]]
      | x :: xs => (a :: x) :: xs

def pySplitSlash (s : String) : List String :=
  (splitOnChar '/' s.data).map String.mk

/-- Python `s.rstrip("/")`: remove every trailing slash. -/
def rstripSlash (s : String) : String :=
  String.mk ((s.data.reverse.dropWhile (fun c => c == '/')).reverse)

/-- Python `date[:6]` (first six characters). -/
def strTake6 (s : String) : String :=
  String.mk (s.data.take 6)

/-- Python `int(s)` on a header value, as used by `head_size`.  Succeeds on a
nonempty all-digit string; any other string raises `ValueError`, modelled as
`Except.error` (whitespace/sign/underscore forms never occur in the headers
involved). -/
def pyInt (s : String) : Except Unit Nat :=
  if s.data ≠ [] ∧ s.data.all (fun c => decide (48 ≤ c.toNat) && decide (c.toNat ≤ 57)) then
    Except.ok (s.data.foldl (fun acc c => acc * 10 + (c.toNat - 48)) 0)
  else Except.error ()

/-! ## Calendar model (`datetime` as used by `generate_dates`)

`datetime.strptime(s, "%Y%m%d")` / `datetime.strftime("%Y%m%d")` /
`timedelta(days=1)` arithmetic, restricted to dates.  A `datetime` date is a
triple (year, month, day); comparison of `datetime` objects is lexicographic
on that triple; `MINYEAR = 1`, `MAXYEAR = 9999`. -/

structure Date where
  year : Nat
  month : Nat
  day : Nat
deriving DecidableEq, Repr

/-- Gregorian leap-year rule (Python `calendar`/`datetime`). -/
def isLeap (y : Nat) : Bool :=
  (y % 4 == 0 && y % 100 != 0) || (y % 400 == 0)

/-- Number of days in a month, per `datetime`. -/
def daysInMonth (y m : Nat) : Nat :=
  if m = 2 then (if isLeap y then 29 else 28)
  else if m = 4 ∨ m = 6 ∨ m = 9 ∨ m = 11 then 30
  else 31

/-- The dates `datetime` can represent (constructor validation). -/
def validDateB (dt : Date) : Bool :=
  decide (1 ≤ dt.year ∧ dt.year ≤ 9999 ∧ 1 ≤ dt.month ∧ dt.month ≤ 12 ∧
    1 ≤ dt.day ∧ dt.day ≤ daysInMonth dt.year dt.month)

/-- The `datetime` comparison `<` (lexicographic on (year, month, day)). -/
def dateLtB (a b : Date) : Bool :=
  decide (a.year < b.year ∨ (a.year = b.year ∧
    (a.month < b.month ∨ (a.month = b.month ∧ a.day < b.day))))

/-- The `datetime` comparison `<=`. -/
def dateLeB (a b : Date) : Bool :=
  dateLtB a b || a == b

/-- Compute `cur + timedelta(days=1)` on valid dates (the caller raises
`OverflowError` before applying this to 9999-12-31, see `dateLoopF`). -/
def nextDate (dt : Date) : Date :=
  if dt.day < daysInMonth dt.year dt.month then ⟨dt.year, dt.month, dt.day + 1⟩
  else if dt.month < 12 then ⟨dt.year, dt.month + 1, 1⟩
  else ⟨dt.year + 1, 1, 1⟩

/-- Strictly monotone rank used as a fuel bound for the date loop:
for dates with month ≤ 12 and day ≤ 31 it is strictly increasing both
lexicographically and under `nextDate`. -/
def toRank (dt : Date) : Nat :=
  dt.year * 600 + dt.month * 40 + dt.day

/-- The largest representable date, `datetime.max`'s date part. -/
def dmax : Date := ⟨9999, 12, 31⟩

def digitVal (c : Char) : Nat := c.toNat - 48

def isDig (c : Char) : Bool :=
  decide (48 ≤ c.toNat) && decide (c.toNat ≤ 57)

/-- The `datetime(y, m, d)` constructor validation. -/
def mkValidated (y m d : Nat) : Option Date :=
  if validDateB ⟨y, m, d⟩ then some ⟨y, m, d⟩ else none

/-- Model of `datetime.strptime(s, "%Y%m%d")`: `%Y` matches exactly four digits,
`%m` and `%d` one or two digits each, greedily with backtracking, and the
whole string must be consumed; the resulting numbers are then validated by
the `datetime` constructor.  Hence 8-character inputs split 4+2+2,
7-character inputs 4+2+1 and 6-character inputs 4+1+1; anything else (or a
non-digit, or an invalid calendar date) raises `ValueError` (`none`). -/
def pyStrptimeYmd (s : String) : Option Date :=
  match s.data with
  | [c1, c2, c3, c4, c5, c6, c7, c8] =>
    if isDig c1 && isDig c2 && isDig c3 && isDig c4 && isDig c5 && isDig c6 &&
        isDig c7 && isDig c8 then
      mkValidated (digitVal c1 * 1000 + digitVal c2 * 100 + digitVal c3 * 10 + digitVal c4)
        (digitVal c5 * 10 + digitVal c6) (digitVal c7 * 10 + digitVal c8)
    else none
  | [c1, c2, c3, c4, c5, c6, c7] =>
    if isDig c1 && isDig c2 && isDig c3 && isDig c4 && isDig c5 && isDig c6 &&
        isDig c7 then
      mkValidated (digitVal c1 * 1000 + digitVal c2 * 100 + digitVal c3 * 10 + digitVal c4)
        (digitVal c5 * 10 + digitVal c6) (digitVal c7)
    else none
  | [c1, c2, c3, c4, c5, c6] =>
    if isDig c1 && isDig c2 && isDig c3 && isDig c4 && isDig c5 && isDig c6 then
      mkValidated (digitVal c1 * 1000 + digitVal c2 * 100 + digitVal c3 * 10 + digitVal c4)
        (digitVal c5) (digitVal c6)
    else none
  | _ => none

/-- Two-digit zero padding (`%m`, `%d`; both values are ≤ 31). -/
def pad2 (n : Nat) : String :=
  if n < 10 then "0" ++ toString n else toString n

/-- Model of `cur.strftime("%Y%m%d")` as CPython delegates it to the C library on
Linux: `%Y` prints the year unpadded, `%m` and `%d` zero-pad to width 2. -/
def fmtDate (dt : Date) : String :=
  toString dt.year ++ pad2 dt.month ++ pad2 dt.day

/-- The `while cur <= end:` loop of `generate_dates` (source lines 147-150):
append `cur.strftime("%Y%m%d")`, then `cur += timedelta(days=1)`, which
raises `OverflowError` (uncaught, modelled `Except.error`) when `cur` is
9999-12-31.  `fuel` is a structural-recursion bound; the caller passes
enough fuel that the `0` case is never the reason for a result (the rank
strictly increases every iteration). -/
def dateLoopF (endD : Date) : Nat → Date → Except Unit (List String)
  | 0, _ => Except.error ()
  | fuel + 1, cur =>
    if dateLeB cur endD then
      if cur = dmax then Except.error ()
      else (dateLoopF endD fuel (nextDate cur)).map (fun rest => fmtDate cur :: rest)
    else Except.ok []

/-- Model of `generate_dates(start_date, end_date)` (source lines 137-153).  The two
`strptime` calls sit in a `try`, whose `except ValueError` logs and returns
`[]`; then `if start > end: start, end = end, start`; then the date loop.
The uncaught `OverflowError` of the loop is the `Except.error` outcome. -/
def generate_dates (start_date end_date : String) : Except Unit (List String) :=
  match pyStrptimeYmd start_date, pyStrptimeYmd end_date with
  | some ps, some pe =>
    let s := if dateLtB pe ps then pe else ps
    let e := if dateLtB pe ps then ps else pe
    dateLoopF e (toRank e + 2 - toRank s) s
  | _, _ => Except.ok []

/-! ## Configuration (`Config` dataclass, the fields the engine reads) -/

structure Config where
  base_url : String
  download_dir : String
  python_version : Option String
  arch : String
  variant : String
  build_pref : String      -- source field name: build_prefix
  retries : Nat
deriving Repr

/-! ## Size probe (`head_size`, source lines 196-230)

One loop iteration (`for attempt in range(retries)`) runs, inside a single
`try`, three techniques in order: (1) a HEAD request reading
`Content-Length`, (2) a `bytes=0-0` range GET parsing the
`Content-Range: .../total` suffix, (3) a streaming GET reading
`Content-Length` from the headers.  Each network call may raise; a raise
anywhere sends control to the `except` arm (retry with backoff, or give up
on the last attempt).  An iteration that finishes all three without a
result executes `return None` immediately. -/

/-- What one attempt's three network calls would deliver.  `Except.error`
models the call raising an exception. -/
structure ProbeAttempt where
  headStatus : Except Unit (Nat × Option String)  -- HEAD: status code, Content-Length value
  rangeCR : Except Unit (Option String)           -- range GET: Content-Range value (status unused by the code)
  streamCL : Except Unit (Option String)          -- streaming GET: Content-Length value
deriving Repr

/-- The body of one `try` block of `head_size`: `.ok (some n)` = size found,
`.ok none` = fell through all three techniques (`return None`),
`.error` = an exception was raised somewhere in the chain. -/
def probeBody (a : ProbeAttempt) : Except Unit (Option Nat) := do
  let (status, cl) ← a.headStatus
  if status < 400 then
    if let some v := cl then
      return some (← pyInt v)
  let cr ← a.rangeCR
  match cr with
  | some crv =>
    -- `if cr and "/" in cr:` — nonempty and containing a slash
    if crv ≠ "" ∧ strContains crv "/" = true then
      let totalStr := (pySplitSlash crv).getLastD ""   -- cr.split("/")[-1]
      if totalStr ≠ "*" then
        return some (← pyInt totalStr)
  | none => pure ()
  let scl ← a.streamCL
  if let some v := scl then
    return some (← pyInt v)
  return none

/-- The retry loop of `head_size` over the list of per-attempt server
behaviours.  `except`: on the last attempt (`attempt == retries - 1`, i.e.
an empty tail) return `None`, otherwise back off and continue — continuing
into an empty loop also returns `None`, so the two cases coincide on the
tail recursion. -/
def headSizeList : List ProbeAttempt → Option Nat
  | [] => none
  | a :: rest =>
    match probeBody a with
    | Except.ok res => res
    | Except.error _ => headSizeList rest

/-- Model of `head_size(client, url, retries)`, with the server's behaviour at
attempt `i` given by `srv i`. -/
def head_size (srv : Nat → ProbeAttempt) (retries : Nat) : Option Nat :=
  headSizeList ((List.range retries).map srv)

/-! ## Local-size check (`needs_download`, source lines 280-290) -/

/-- Model of `needs_download(local_path, remote_size)`; the local file is abstracted
to its size (`none` = `os.path.exists` is false).  Returns
(download needed, already-present byte count). -/
def needs_download (localSize : Option Nat) (remoteSize : Option Nat) : Bool × Nat :=
  match localSize with
  | none => (true, 0)
  | some localSz =>
    match remoteSize with
    | none => (false, localSz)    -- remote size unknown: conservatively keep the file
    | some remote =>
      if localSz ≥ remote then (false, localSz)
      else (true, localSz)

/-! ## Transfer engine (`download_one`, source lines 293-372)

The HTTP client is abstracted to a script `srv : Nat → AttemptResult`
giving, for the i-th `client.stream("GET", ...)` call, either a raised
exception or a response (status, delivered chunks, whether the stream
raises after those chunks).  The rich progress bar is abstracted to the two
counters the code drives: the per-task `completed` value and the sum of
`advance` calls on the run-wide task.  The run-wide updates are guarded by
`if total_task_id:` — Python truthiness, false both for `None` and for task
id `0` — modelled by `tidTruthy`. -/

inductive AttemptResult where
  | connFail : AttemptResult
  | resp (status : Nat) (chunks : List (List Nat)) (midErr : Bool) : AttemptResult
deriving Repr

inductive JobOutcome where
  | skipped | completed | failed | interrupted
deriving DecidableEq, Repr

structure DownloadResult where
  file : Option (List Nat)   -- local file content; none = absent
  jobCompleted : Nat         -- per-task progress `completed`
  totalAdvanced : Int        -- net sum of run-wide `advance` amounts
  rangeHeader : Option Nat   -- the `Range: bytes=<have>-` offset, if sent
  outcome : JobOutcome
deriving DecidableEq, Repr

/-- The inner `for chunk in r.iter_bytes(...)` loop: skip empty chunks,
check the shutdown event, append the chunk, advance both counters (the
run-wide one only when `total_task_id` is truthy).  Returns the file,
counters, and whether the shutdown return was taken. -/
def writeChunks (shutdown tidTruthy : Bool) :
    List (List Nat) → List Nat → Nat → Int → (List Nat × Nat × Int × Bool)
  | [], f, jc, tc => (f, jc, tc, false)
  | c :: rest, f, jc, tc =>
    if c = [] then writeChunks shutdown tidTruthy rest f jc tc
    else if shutdown then (f, jc, tc, true)
    else writeChunks shutdown tidTruthy rest (f ++ c) (jc + c.length)
      (tc + (if tidTruthy then (c.length : Int) else 0))

inductive AttemptOut where
  | raised (disk : Option (List Nat)) (jc : Nat) (tc : Int)
  | interrupted (disk : Option (List Nat)) (jc : Nat) (tc : Int)
  | done (disk : Option (List Nat)) (jc : Nat) (tc : Int)
deriving Repr

/-- One iteration of the attempt loop (source lines 326-365):
`raise_for_status` (4xx/5xx raise); the 200-despite-Range branch resets the
file mode to truncating `"wb"`, sets the per-task counter to 0 and advances
the run-wide counter by `-have`; 206 appends (`"ab"`); otherwise `"wb"`;
then the chunk loop runs, and a mid-stream error raises into the `except`
arm. -/
def attemptRun (shutdown tidTruthy : Bool) (have_ : Nat) (a : AttemptResult)
    (disk : Option (List Nat)) (jc : Nat) (tc : Int) : AttemptOut :=
  match a with
  | AttemptResult.connFail => AttemptOut.raised disk jc tc
  | AttemptResult.resp status chunks midErr =>
    if status ≥ 400 then AttemptOut.raised disk jc tc
    else
      let modeWb : Bool := if have_ > 0 ∧ status = 200 then true
        else if have_ > 0 ∧ status = 206 then false
        else true
      let jc1 := if have_ > 0 ∧ status = 200 then 0 else jc
      let tc1 := if have_ > 0 ∧ status = 200 then
          tc - (if tidTruthy then (have_ : Int) else 0) else tc
      let f0 := if modeWb then [] else disk.getD []
      match writeChunks shutdown tidTruthy chunks f0 jc1 tc1 with
      | (f, jc2, tc2, true) => AttemptOut.interrupted (some f) jc2 tc2
      | (f, jc2, tc2, false) =>
        if midErr then AttemptOut.raised (some f) jc2 tc2
        else AttemptOut.done (some f) jc2 tc2

/-- The `for attempt in range(1, attempts + 1)` loop; `remaining = 0` is
the loop running out (for `attempts = 0` the function falls through with no
attempt made; an exception on the last attempt returns after logging the
failure — both are terminal non-success, recorded as `failed`). -/
def downloadLoop (srv : Nat → AttemptResult) (shutdown tidTruthy : Bool)
    (have_ : Nat) (rangeHdr : Option Nat) :
    Nat → Nat → Option (List Nat) → Nat → Int → DownloadResult
  | 0, _, disk, jc, tc => ⟨disk, jc, tc, rangeHdr, JobOutcome.failed⟩
  | remaining + 1, idx, disk, jc, tc =>
    match attemptRun shutdown tidTruthy have_ (srv idx) disk jc tc with
    | AttemptOut.done d j t => ⟨d, j, t, rangeHdr, JobOutcome.completed⟩
    | AttemptOut.interrupted d j t => ⟨d, j, t, rangeHdr, JobOutcome.interrupted⟩
    | AttemptOut.raised d j t =>
      downloadLoop srv shutdown tidTruthy have_ rangeHdr remaining (idx + 1) d j t

/-- Model of `download_one` for one job.  `localFile` is the on-disk content
(`none` = absent), `remoteSize` the probed size, `retries` the configured
attempt count.  The shutdown event is modelled as a constant for the
duration of the job. -/
def download_one (srv : Nat → AttemptResult) (shutdown tidTruthy : Bool)
    (localFile : Option (List Nat)) (remoteSize : Option Nat)
    (retries : Nat) : DownloadResult :=
  if shutdown then ⟨localFile, 0, 0, none, JobOutcome.interrupted⟩
  else
    let nd := needs_download (localFile.map List.length) remoteSize
    if !nd.1 then
      -- progress.update(task_id, total=remote_size or 0, completed=remote_size or have)
      let jc := match remoteSize with
        | some r => if r ≠ 0 then r else nd.2
        | none => nd.2
      ⟨localFile, jc, 0, none, JobOutcome.skipped⟩
    else
      let have_ := nd.2
      let rangeHdr : Option Nat := if have_ > 0 then some have_ else none
      let jc0 := if have_ > 0 then have_ else 0
      let tc0 : Int := if have_ > 0 ∧ tidTruthy then (have_ : Int) else 0
      downloadLoop srv shutdown tidTruthy have_ rangeHdr retries 0 localFile jc0 tc0

/-! ## Discovery (`get_master_builds`, `get_download_links`, the `main`
crawl loop, source lines 246-273 and 461-501)

`fetch_html` + `parse_dir_links` are abstracted to an oracle
`pages : String → Option (List String)` mapping a directory URL to the
extracted hyperlink list (`none` = the fetch failed after its retries). -/

/-- URL of a date's index page: `{base_url}/{yyyymm}/{date}/`. -/
def dateUrl (cfg : Config) (date : String) : String :=
  rstripSlash cfg.base_url ++ "/" ++ strTake6 date ++ "/" ++ date ++ "/"

/-- URL of a build's artifact index:
`{base_url}/{yyyymm}/{date}/{build}{variant}/{arch}/`. -/
def buildUrl (cfg : Config) (date build : String) : String :=
  rstripSlash cfg.base_url ++ "/" ++ strTake6 date ++ "/" ++ date ++ "/" ++
    build ++ cfg.variant ++ "/" ++ cfg.arch ++ "/"

/-- Model of `get_master_builds`: keep links starting with the build prefix and
ending with the `_newest/` marker. -/
def get_master_builds (cfg : Config) (pages : String → Option (List String))
    (date : String) : List String :=
  match pages (dateUrl cfg date) with
  | none => []
  | some hrefs =>
    hrefs.filter (fun h => strStartsWith h cfg.build_pref && strEndsWith h "_newest/")

/-- The per-link filter of `get_download_links`:
`continue` unless the name ends in `.whl`; `continue` when a Python-version
filter is configured (truthy, i.e. `some pv` with `pv ≠ ""`) and
`f"-{pv}-"` is not a substring of the name. -/
def whlKeep (pythonVersion : Option String) (h : String) : Bool :=
  strEndsWith h ".whl" &&
    (match pythonVersion with
     | some pv => if pv ≠ "" then strContains h ("-" ++ pv ++ "-") else true
     | none => true)

/-- The kept links of one artifact index page, fully qualified
(`links.append(build_url + h)`). -/
def filterWhl (pythonVersion : Option String) (burl : String)
    (hrefs : List String) : List String :=
  (hrefs.filter (whlKeep pythonVersion)).map (fun h => burl ++ h)

/-- Model of `get_download_links`. -/
def get_download_links (cfg : Config) (pages : String → Option (List String))
    (date build : String) : List String :=
  match pages (buildUrl cfg date build) with
  | none => []
  | some hrefs => filterWhl cfg.python_version (buildUrl cfg date build) hrefs

/-- The `all_urls` accumulation of `main` (source lines 486-490): the
nested discovery loop, in order, one `(url, date, build)` triple per kept
link — no deduplication is performed. -/
def allUrls (cfg : Config) (pages : String → Option (List String))
    (dates : List String) : List (String × String × String) :=
  dates.flatMap (fun d =>
    (get_master_builds cfg pages d).flatMap (fun b =>
      (get_download_links cfg pages d b).map (fun u => (u, d, b))))

/-- The pre-network part of `main` (source lines 461-493): resolve dates —
`sys.exit(1)` when the list is empty, which happens exactly when a date
fails to parse; an uncaught `OverflowError` of `generate_dates` also
terminates the run before the HTTP client exists — then crawl.  The empty
`all_urls` case returns normally before scheduling. -/
inductive RunExit where
  | invalidDateExit                                -- sys.exit(1), no HTTP client was created
  | overflowCrash                                  -- uncaught OverflowError, ditto
  | noFiles                                        -- "未找到任何可下载的 .whl 文件"
  | proceeded (urls : List (String × String × String))
deriving Repr

def mainDiscover (cfg : Config) (pages : String → Option (List String))
    (start_date end_date : String) : RunExit :=
  match generate_dates start_date end_date with
  | Except.error _ => RunExit.overflowCrash
  | Except.ok [] => RunExit.invalidDateExit
  | Except.ok dates =>
    let urls := allUrls cfg pages dates
    if urls = [] then RunExit.noFiles else RunExit.proceeded urls

/-! ## Concurrency controller (`main`, source lines 544-556)

`semaphore = threading.Semaphore(cfg.max_workers)`; each job's wrapper
thread acquires a permit, then (unless the shutdown event is set) runs
`download_one` to completion, and releases the permit.  Modelled as a step
relation on an abstract pool state: `waiting` wrappers have not yet
acquired, `streaming` jobs hold a permit and are inside `download_one`,
`done` jobs have released theirs, `permits` is the semaphore's counter. -/

structure PoolState where
  waiting : Nat
  streaming : Nat
  done : Nat
  permits : Nat
deriving DecidableEq, Repr

inductive PoolStep : PoolState → PoolState → Prop where
  /-- A wrapper acquires a permit and enters `download_one` (`Streaming`). -/
  | acquire (w s d p : Nat) : PoolStep ⟨w + 1, s, d, p + 1⟩ ⟨w, s + 1, d, p⟩
  /-- A wrapper acquires a permit, observes the shutdown event, and releases
  without running the job. -/
  | acquireSkip (w s d p : Nat) : PoolStep ⟨w + 1, s, d, p + 1⟩ ⟨w, s, d + 1, p + 1⟩
  /-- A running job finishes `download_one` and releases its permit. -/
  | release (w s d p : Nat) : PoolStep ⟨w, s + 1, d, p⟩ ⟨w, s, d + 1, p + 1⟩

/-- States reachable during one run with worker count `k` and `m` scheduled
jobs: initially all `m` wrappers wait and the semaphore holds `k` permits. -/
inductive PoolReach (k m : Nat) : PoolState → Prop where
  | init : PoolReach k m ⟨m, 0, 0, k⟩
  | step {s t : PoolState} : PoolReach k m s → PoolStep s t → PoolReach k m t

/-! ## Concrete instances used by individual claims -/

/-- Technique (2) of the size probe in isolation (the `bytes=0-0` range
request and its `Content-Range` parsing, source lines 209-216), used to
state what that technique alone would deliver on a given attempt. -/
def rangeTechnique (a : ProbeAttempt) : Except Unit (Option Nat) := do
  let cr ← a.rangeCR
  match cr with
  | some crv =>
    if crv ≠ "" ∧ strContains crv "/" = true then
      let totalStr := (pySplitSlash crv).getLastD ""
      if totalStr ≠ "*" then
        return some (← pyInt totalStr)
  | none => pure ()
  return none

/-- A server whose HEAD endpoint always raises while the range request
always discloses the total size 42. -/
def c2srv : Nat → ProbeAttempt := fun _ =>
  ⟨Except.error (), Except.ok (some "bytes 0-0/42"), Except.ok none⟩

/-- A server whose first attempt completes the whole chain without an
exception and without a size, while every later attempt would disclose the
size via HEAD. -/
def c2wsrv : Nat → ProbeAttempt := fun i =>
  if i = 0 then ⟨Except.ok (200, none), Except.ok none, Except.ok none⟩
  else ⟨Except.ok (200, some "42"), Except.ok none, Except.ok none⟩

/-- A server for a resumed transfer (`Range: bytes=2-`) that honours the
range (206) but drops the connection after re-serving bytes 2-3, then on
the retry serves bytes 2-5 completely. -/
def c4srv : Nat → AttemptResult := fun i =>
  if i = 0 then AttemptResult.resp 206 [[12, 13]] true
  else AttemptResult.resp 206 [[12, 13, 14, 15]] false

/-- A concrete configuration for the discovery counterexample. -/
def cxCfg : Config :=
  ⟨"https://repo.example.cn/version/", "downloads", some "cp310", "aarch64",
    "unified", "master_", 4⟩

/-- A page oracle on which the date page lists one build directory and the
build's artifact index yields the same `.whl` hyperlink twice. -/
def cxPages : String → Option (List String) := fun url =>
  if url = dateUrl cxCfg "20250101" then some ["master_20250101_newest/"]
  else if url = buildUrl cxCfg "20250101" "master_20250101_newest/" then
    some ["mindspore-2.3.0-cp310-cp310-linux_aarch64.whl",
          "mindspore-2.3.0-cp310-cp310-linux_aarch64.whl"]
  else none

/-! ## Helper lemmas -/

theorem strAppend_left_cancel {u a b : String} (h : u ++ a = u ++ b) : a = b := by
  have hd : (u ++ a).data = (u ++ b).data := congrArg String.data h
  rw [String.data_append, String.data_append] at hd
  exact String.ext (List.append_cancel_left hd)

theorem strAppend_injective (u : String) : Function.Injective (fun x => u ++ x) :=
  fun _ _ h => strAppend_left_cancel h

theorem count_filter_eq {α : Type} [DecidableEq α] (p : α → Bool) (l : List α) (x : α) :
    (l.filter p).count x = if p x = true then l.count x else 0 := by
  induction l with
  | nil => simp
  | cons a t ih =>
    by_cases hax : x = a
    · subst hax
      by_cases hpa : p x = true
      · simp [List.filter_cons_of_pos hpa, ih, hpa]
      · simp [List.filter_cons_of_neg hpa, ih, hpa]
    · have h1 : List.count x (a :: t) = List.count x t := List.count_cons_of_ne hax t
      by_cases hpa : p a = true
      · rw [List.filter_cons_of_pos hpa, List.count_cons_of_ne hax, ih, h1]
      · rw [List.filter_cons_of_neg hpa, ih, h1]

theorem writeChunks_no_shutdown (tid : Bool) (chunks : List (List Nat))
    (f : List Nat) (jc : Nat) (tc : Int) :
    writeChunks false tid chunks f jc tc =
      (f ++ chunks.join, jc + (chunks.map List.length).sum,
        tc + (if tid then ((chunks.map List.length).sum : Int) else 0), false) := by
  induction chunks generalizing f jc tc with
  | nil => cases tid <;> simp [writeChunks]
  | cons c rest ih =>
    by_cases hc : c = []
    · subst hc
      rw [writeChunks, if_pos rfl, ih]
      simp
    · rw [writeChunks, if_neg hc, if_neg (by simp), ih]
      refine Prod.ext (by simp) (Prod.ext (by simp [Nat.add_assoc]) (Prod.ext ?_ rfl))
      simp only [List.map_cons, List.sum_cons]
      cases tid <;> simp <;> push_cast <;> ring

theorem downloadLoop_outcome_ne_skipped (srv : Nat → AttemptResult)
    (sh tid : Bool) (hv : Nat) (rh : Option Nat) :
    ∀ (n idx : Nat) (disk : Option (List Nat)) (jc : Nat) (tc : Int),
      (downloadLoop srv sh tid hv rh n idx disk jc tc).outcome ≠ JobOutcome.skipped := by
  intro n
  induction n with
  | zero => intro idx disk jc tc; simp [downloadLoop]
  | succ m ih =>
    intro idx disk jc tc
    rw [downloadLoop]
    cases attemptRun sh tid hv (srv idx) disk jc tc with
    | raised d j t => exact ih (idx + 1) d j t
    | interrupted d j t => simp
    | done d j t => simp

theorem downloadLoop_rangeHeader (srv : Nat → AttemptResult)
    (sh tid : Bool) (hv : Nat) (rh : Option Nat) :
    ∀ (n idx : Nat) (disk : Option (List Nat)) (jc : Nat) (tc : Int),
      (downloadLoop srv sh tid hv rh n idx disk jc tc).rangeHeader = rh := by
  intro n
  induction n with
  | zero => intro idx disk jc tc; simp [downloadLoop]
  | succ m ih =>
    intro idx disk jc tc
    rw [downloadLoop]
    cases attemptRun sh tid hv (srv idx) disk jc tc with
    | raised d j t => exact ih (idx + 1) d j t
    | interrupted d j t => simp
    | done d j t => simp

theorem headSizeList_cons (a : ProbeAttempt) (rest : List ProbeAttempt) :
    headSizeList (a :: rest) =
      (match probeBody a with
       | Except.ok res => res
       | Except.error _ => headSizeList rest) := rfl

theorem daysInMonth_le (y m : Nat) : daysInMonth y m ≤ 31 := by
  unfold daysInMonth
  split_ifs <;> omega

theorem daysInMonth_pos (y m : Nat) : 1 ≤ daysInMonth y m := by
  unfold daysInMonth
  split_ifs <;> omega

theorem validDateB_eq (dt : Date) : validDateB dt = true ↔
    (1 ≤ dt.year ∧ dt.year ≤ 9999 ∧ 1 ≤ dt.month ∧ dt.month ≤ 12 ∧
      1 ≤ dt.day ∧ dt.day ≤ daysInMonth dt.year dt.month) := by
  simp [validDateB]

theorem dateLtB_eq (a b : Date) : dateLtB a b = true ↔
    (a.year < b.year ∨ (a.year = b.year ∧
      (a.month < b.month ∨ (a.month = b.month ∧ a.day < b.day)))) := by
  simp [dateLtB]

theorem dateLeB_eq (a b : Date) : dateLeB a b = true ↔
    (dateLtB a b = true ∨ a = b) := by
  simp [dateLeB]

theorem dateLeB_eq' (a b : Date) : dateLeB a b = true ↔
    (a.year < b.year ∨ (a.year = b.year ∧
      (a.month < b.month ∨ (a.month = b.month ∧ a.day ≤ b.day)))) := by
  obtain ⟨ya, ma, da⟩ := a
  obtain ⟨yb, mb, db⟩ := b
  simp only [dateLeB, dateLtB, Bool.or_eq_true, decide_eq_true_eq, beq_iff_eq,
    Date.mk.injEq]
  constructor <;> intro h <;> omega

theorem dateLeB_of_lt {a b : Date} (h : dateLtB a b = true) :
    dateLeB a b = true :=
  (dateLeB_eq a b).mpr (Or.inl h)

theorem dateLeB_false_of_lt {a b : Date} (h : dateLtB a b = true) :
    dateLeB b a = false := by
  rw [← Bool.not_eq_true] at *
  rw [dateLtB_eq] at h
  rw [dateLeB_eq']
  omega

theorem dateLtB_next_self {a : Date} (ha : validDateB a = true) :
    dateLtB a (nextDate a) = true := by
  rw [validDateB_eq] at ha
  unfold nextDate
  split_ifs <;> rw [dateLtB_eq] <;> simp <;> omega

theorem nextDate_valid {a : Date} (ha : validDateB a = true) (hne : a ≠ dmax) :
    validDateB (nextDate a) = true := by
  obtain ⟨y, m, d⟩ := a
  rw [validDateB_eq] at ha
  dsimp only at ha
  obtain ⟨h1, h2, h3, h4, h5, h6⟩ := ha
  unfold nextDate
  dsimp only
  split_ifs with hd hm
  · rw [validDateB_eq]
    dsimp only
    exact ⟨h1, h2, h3, h4, by omega, by omega⟩
  · rw [validDateB_eq]
    dsimp only
    exact ⟨h1, h2, by omega, by omega, by omega, daysInMonth_pos _ _⟩
  · rw [validDateB_eq]
    dsimp only
    have hm12 : m = 12 := by omega
    have hy : y ≠ 9999 := by
      intro h9
      apply hne
      have hdm : daysInMonth y m = 31 := by subst hm12; norm_num [daysInMonth]
      have hd31 : d = 31 := by omega
      subst h9; subst hm12; subst hd31; rfl
    exact ⟨by omega, by omega, by omega, by omega, by omega, daysInMonth_pos _ _⟩

theorem toRank_lt_next {a : Date} (ha : validDateB a = true) :
    toRank a < toRank (nextDate a) := by
  obtain ⟨y, m, d⟩ := a
  rw [validDateB_eq] at ha
  dsimp only at ha
  have h31 := daysInMonth_le y m
  unfold nextDate
  dsimp only
  split_ifs <;> simp only [toRank] <;> (try dsimp only) <;> omega

theorem toRank_lt_of_lt {a b : Date} (ha : validDateB a = true)
    (hb : validDateB b = true) (h : dateLtB a b = true) :
    toRank a < toRank b := by
  obtain ⟨ya, ma, da⟩ := a
  obtain ⟨yb, mb, db⟩ := b
  rw [validDateB_eq] at ha hb
  rw [dateLtB_eq] at h
  have h31a := daysInMonth_le ya ma
  have h31b := daysInMonth_le yb mb
  simp only [toRank]
  dsimp only at h ha hb ⊢
  omega

theorem toRank_le_of_le {a b : Date} (ha : validDateB a = true)
    (hb : validDateB b = true) (h : dateLeB a b = true) :
    toRank a ≤ toRank b := by
  rcases (dateLeB_eq a b).mp h with h' | h'
  · exact Nat.le_of_lt (toRank_lt_of_lt ha hb h')
  · subst h'; exact Nat.le_refl _

theorem nextDate_le_of_lt {a b : Date} (ha : validDateB a = true)
    (hb : validDateB b = true) (h : dateLtB a b = true) :
    dateLeB (nextDate a) b = true := by
  obtain ⟨ya, ma, da⟩ := a
  obtain ⟨yb, mb, db⟩ := b
  rw [validDateB_eq] at ha hb
  rw [dateLtB_eq] at h
  dsimp only at h ha hb
  have h31a := daysInMonth_le ya ma
  have h31b := daysInMonth_le yb mb
  unfold nextDate
  dsimp only
  split_ifs with hd hm <;> rw [dateLeB_eq'] <;> dsimp only <;>
    rcases h with hy | ⟨hy, hm2 | ⟨hm2, hd2⟩⟩ <;>
    (try subst hy) <;> (try subst hm2) <;> omega

theorem eq_dmax_of_le {b : Date} (hvb : validDateB b = true)
    (h : dateLeB dmax b = true) : b = dmax := by
  obtain ⟨y, m, d⟩ := b
  rw [validDateB_eq] at hvb
  rw [dateLeB_eq'] at h
  simp only [dmax] at h ⊢
  have h31 := daysInMonth_le y m
  dsimp only at hvb h
  simp only [Date.mk.injEq]
  refine ⟨?_, ?_, ?_⟩ <;> omega

theorem mkValidated_valid {y m d : Nat} {dt : Date}
    (h : mkValidated y m d = some dt) : validDateB dt = true := by
  unfold mkValidated at h
  by_cases hv : validDateB ⟨y, m, d⟩ = true
  · rw [if_pos hv] at h
    cases h
    exact hv
  · rw [if_neg hv] at h
    cases h

theorem pyStrptimeYmd_valid {s : String} {d : Date}
    (h : pyStrptimeYmd s = some d) : validDateB d = true := by
  unfold pyStrptimeYmd at h
  split at h
  · split at h
    · exact mkValidated_valid h
    · cases h
  · split at h
    · exact mkValidated_valid h
    · cases h
  · split at h
    · exact mkValidated_valid h
    · cases h
  · cases h

instance dateLtB_isTrans : IsTrans Date (fun a b => dateLtB a b = true) := by
  constructor
  intro a b c hab hbc
  rw [dateLtB_eq] at hab hbc
  show dateLtB a c = true
  rw [dateLtB_eq]
  omega

theorem dateLoopF_spec (endD : Date) (hvE : validDateB endD = true)
    (hne : endD ≠ dmax) :
    ∀ (fuel : Nat) (cur : Date), validDateB cur = true →
      dateLeB cur endD = true →
      toRank endD + 2 ≤ toRank cur + fuel →
      ∃ dl : List Date,
        dateLoopF endD fuel cur = Except.ok (dl.map fmtDate) ∧
        dl.head? = some cur ∧ dl.getLast? = some endD ∧
        List.Chain' (fun a b => b = nextDate a ∧ validDateB a = true) dl ∧
        (∀ d ∈ dl, validDateB d = true) := by
  intro fuel
  induction fuel with
  | zero =>
    intro cur hv hle hfuel
    exfalso
    have h1 : toRank cur ≤ toRank endD := toRank_le_of_le hv hvE hle
    omega
  | succ f ih =>
    intro cur hv hle hfuel
    have hcur_ne : cur ≠ dmax := by
      intro hEq
      subst hEq
      exact hne (eq_dmax_of_le hvE hle)
    rw [dateLoopF, if_pos hle, if_neg hcur_ne]
    by_cases hEq : cur = endD
    · subst hEq
      have hnot : dateLeB (nextDate cur) cur = false :=
        dateLeB_false_of_lt (dateLtB_next_self hv)
      obtain ⟨f', rfl⟩ : ∃ f', f = f' + 1 := by
        have h1 : toRank cur ≤ toRank cur := Nat.le_refl _
        exact ⟨f - 1, by omega⟩
      rw [dateLoopF, if_neg (by simp [hnot])]
      refine ⟨[cur], ?_, rfl, rfl, List.chain'_singleton _, by simp [hv]⟩
      rfl
    · have hlt : dateLtB cur endD = true := by
        rcases (dateLeB_eq cur endD).mp hle with h | h
        · exact h
        · exact absurd h hEq
      have hvN : validDateB (nextDate cur) = true := nextDate_valid hv hcur_ne
      have hleN : dateLeB (nextDate cur) endD = true :=
        nextDate_le_of_lt hv hvE hlt
      have hrank : toRank cur < toRank (nextDate cur) := toRank_lt_next hv
      obtain ⟨dl, hdl, hhead, hlast, hchain, hall⟩ :=
        ih (nextDate cur) hvN hleN (by omega)
      refine ⟨cur :: dl, ?_, rfl, ?_, ?_, ?_⟩
      · rw [hdl]; rfl
      · rcases dl with _ | ⟨b, t⟩
        · simp at hhead
        · rw [List.getLast?_cons_cons]; exact hlast
      · rcases dl with _ | ⟨b, t⟩
        · simp at hhead
        · have hb : b = nextDate cur := by simpa using hhead
          exact List.chain'_cons.mpr ⟨⟨hb, hv⟩, hchain⟩
      · intro x hx
        rcases List.mem_cons.mp hx with rfl | hx
        · exact hv
        · exact hall x hx

theorem dateLtB_asymm {a b : Date} (h : dateLtB a b = true) :
    dateLtB b a = false := by
  rw [← Bool.not_eq_true]
  rw [dateLtB_eq] at h ⊢
  omega

theorem generate_dates_parse_fail {s e : String}
    (h : pyStrptimeYmd s = none ∨ pyStrptimeYmd e = none) :
    generate_dates s e = Except.ok [] := by
  unfold generate_dates
  rcases h with h | h
  · rw [h]
  · rcases hS : pyStrptimeYmd s with _ | d
    · rfl
    · rw [h]

/-! ## Claim theorems -/

/-- Claim C5: the local-size check skips the job when the local file exists
and (the remote size is known and local ≥ remote), skips when the local
file exists and the remote size is unknown, and otherwise downloads with
resume offset equal to the existing local size (0 when the file is
absent). -/
theorem needs_download_policy (l r : Nat) :
    (r ≤ l → needs_download (some l) (some r) = (false, l)) ∧
    (needs_download (some l) none = (false, l)) ∧
    (l < r → needs_download (some l) (some r) = (true, l)) ∧
    (∀ ro : Option Nat, needs_download none ro = (true, 0)) ∧
    (∀ (srv : Nat → AttemptResult) (tid : Bool) (k : Nat) (lf : List Nat),
      r ≤ lf.length →
      (download_one srv false tid (some lf) (some r) k).outcome = JobOutcome.skipped ∧
      (download_one srv false tid (some lf) (some r) k).file = some lf) ∧
    (∀ (srv : Nat → AttemptResult) (tid : Bool) (k : Nat) (lf : List Nat),
      (download_one srv false tid (some lf) none k).outcome = JobOutcome.skipped ∧
      (download_one srv false tid (some lf) none k).file = some lf) ∧
    (∀ (srv : Nat → AttemptResult) (tid : Bool) (k : Nat) (lf : List Nat),
      lf.length < r → 0 < lf.length →
      (download_one srv false tid (some lf) (some r) k).rangeHeader =
        some lf.length) := by
  refine ⟨fun h => by simp [needs_download, h], by simp [needs_download],
    fun h => by simp [needs_download, Nat.not_le.mpr h], fun ro => by simp [needs_download],
    ?_, ?_, ?_⟩
  · intro srv tid k lf h
    simp [download_one, needs_download, h]
  · intro srv tid k lf
    simp [download_one, needs_download]
  · intro srv tid k lf h hpos
    simp [download_one, needs_download, Nat.not_le.mpr h, hpos, downloadLoop_rangeHeader]

/-- Claim C10: when the local path does not exist, the local-size check
returns (download needed, resume offset 0) whatever the remote size is, and
the transfer is never skipped: an unknown remote size never prevents a
download from scratch. -/
theorem absent_file_downloads (ro : Option Nat) :
    needs_download none ro = (true, 0) ∧
    (∀ (srv : Nat → AttemptResult) (tid : Bool) (k : Nat),
      (download_one srv false tid none ro k).outcome ≠ JobOutcome.skipped) ∧
    (∀ (srv : Nat → AttemptResult) (tid : Bool) (k : Nat),
      (download_one srv false tid none ro k).rangeHeader = none) := by
  refine ⟨by simp [needs_download], ?_, ?_⟩
  · intro srv tid k
    simp only [download_one, needs_download]
    simp [downloadLoop_outcome_ne_skipped]
  · intro srv tid k
    simp only [download_one, needs_download]
    simp [downloadLoop_rangeHeader]

/-- Witness for C5 at concrete inputs. -/
theorem needs_download_policy_witness :
    needs_download (some 7) (some 5) = (false, 7) ∧
    needs_download (some 3) (some 5) = (true, 3) ∧
    (download_one (fun _ => AttemptResult.connFail) false true
      (some [1, 2, 3]) (some 2) 1).outcome = JobOutcome.skipped ∧
    (download_one (fun _ => AttemptResult.connFail) false true
      (some [1, 2, 3]) none 1).file = some [1, 2, 3] ∧
    (download_one (fun _ => AttemptResult.connFail) false true
      (some [1, 2, 3]) (some 9) 1).rangeHeader = some 3 :=
  ⟨(needs_download_policy 7 5).1 (by decide),
   (needs_download_policy 3 5).2.2.1 (by decide),
   ((needs_download_policy 0 2).2.2.2.2.1 (fun _ => AttemptResult.connFail)
     true 1 [1, 2, 3] (by decide)).1,
   ((needs_download_policy 0 2).2.2.2.2.2.1 (fun _ => AttemptResult.connFail)
     true 1 [1, 2, 3]).2,
   (needs_download_policy 0 9).2.2.2.2.2.2 (fun _ => AttemptResult.connFail)
     true 1 [1, 2, 3] (by decide) (by decide)⟩

/-- Claim C8: with a configured interpreter-tag filter `pv` (nonempty), an
artifact hyperlink ending in `.whl` is kept exactly when its name contains
the tag surrounded by hyphen separators, i.e. the substring `-pv-`. -/
theorem tag_filter_iff (pv u h : String) (hrefs : List String)
    (hpv : pv ≠ "") (hwhl : strEndsWith h ".whl" = true) :
    (u ++ h) ∈ filterWhl (some pv) u hrefs ↔
      (h ∈ hrefs ∧ strContains h ("-" ++ pv ++ "-") = true) := by
  unfold filterWhl
  constructor
  · intro hm
    rcases List.mem_map.mp hm with ⟨a, ha, hae⟩
    have hah : a = h := strAppend_left_cancel hae
    subst hah
    rcases List.mem_filter.mp ha with ⟨hmem, hkeep⟩
    refine ⟨hmem, ?_⟩
    unfold whlKeep at hkeep
    simpa [hwhl, hpv] using hkeep
  · rintro ⟨hmem, hct⟩
    refine List.mem_map.mpr ⟨h, List.mem_filter.mpr ⟨hmem, ?_⟩, rfl⟩
    unfold whlKeep
    simp [hwhl, hpv, hct]

/-- Witness for C8: `cp310` keeps a `-cp310-` wheel and rejects a
`-cp3100-` wheel. -/
theorem tag_filter_iff_witness :
    ("https://x/" ++ "mindspore-2.3.0-cp310-cp310-linux_aarch64.whl") ∈
      filterWhl (some "cp310") "https://x/"
        ["mindspore-2.3.0-cp310-cp310-linux_aarch64.whl",
         "mindspore-2.3.0-cp3100-cp3100-linux_aarch64.whl"] ∧
    ¬ (("https://x/" ++ "mindspore-2.3.0-cp3100-cp3100-linux_aarch64.whl") ∈
      filterWhl (some "cp310") "https://x/"
        ["mindspore-2.3.0-cp310-cp310-linux_aarch64.whl",
         "mindspore-2.3.0-cp3100-cp3100-linux_aarch64.whl"]) :=
  ⟨(tag_filter_iff "cp310" "https://x/" _ _ (by decide) (by decide)).mpr
      ⟨by decide, by decide⟩,
   fun hm =>
    absurd ((tag_filter_iff "cp310" "https://x/" _ _ (by decide) (by decide)).mp hm).2
      (by decide)⟩

/-- Claim C3 counterexample: with a page oracle that yields the same
artifact hyperlink twice on one build's index page, the scheduled job list
contains the same URL twice — the run does schedule one URL twice. -/
theorem schedule_duplicate_url :
    ((allUrls cxCfg cxPages ["20250101"]).map Prod.fst).count
      (buildUrl cxCfg "20250101" "master_20250101_newest/" ++
        "mindspore-2.3.0-cp310-cp310-linux_aarch64.whl") = 2 ∧
    ¬ ((allUrls cxCfg cxPages ["20250101"]).map Prod.fst).Nodup := by
  decide

/-- Claim C3 (amended): a run schedules one transfer job per discovered
artifact hyperlink that passes filtering, preserving multiplicity and
discovery order; no URL-level deduplication is applied, so a URL appears in
the schedule exactly as many times as its hyperlink occurs in the page's
extracted link list (0 when the link is filtered out). -/
theorem schedule_counts_links (pv : Option String) (u h : String)
    (hrefs : List String) :
    (filterWhl pv u hrefs).count (u ++ h) =
      if whlKeep pv h = true then hrefs.count h else 0 := by
  unfold filterWhl
  rw [show u ++ h = (fun x => u ++ x) h from rfl,
    List.count_map_of_injective _ _ (strAppend_injective u), count_filter_eq]

/-- Claim C2 counterexample: a server whose HEAD technique raises on every
attempt while the range technique would disclose the size on its very first
try.  `head_size` reports the size as unknown although technique (2) never
exhausted (or even started) its retries — the probe retries the whole
chain, not each technique. -/
theorem head_size_not_per_technique :
    head_size c2srv 2 = none ∧
    rangeTechnique (c2srv 0) = Except.ok (some 42) ∧
    rangeTechnique (c2srv 1) = Except.ok (some 42) :=
  ⟨rfl, rfl, rfl⟩

/-- Claim C2 (amended): each probe attempt runs the three techniques in
order inside a single pass, first success wins; an exception anywhere in
the pass triggers backoff and a retry of the whole pass, up to the
configured retry count; a pass that completes without an exception and
without finding a size reports unknown immediately, and zero attempts
report unknown. -/
theorem head_size_whole_chain (srv : Nat → ProbeAttempt) (r : Nat) :
    head_size srv (r + 1) =
      (match probeBody (srv 0) with
       | Except.ok res => res
       | Except.error _ => head_size (fun i => srv (i + 1)) r) ∧
    head_size srv 0 = none := by
  constructor
  · unfold head_size
    rw [List.range_succ_eq_map]
    simp only [List.map_cons, List.map_map]
    rw [headSizeList_cons]
    rfl
  · rfl

/-- Claim C9: with worker count `k`, every state reachable by the
semaphore-controlled pool has at most `k` jobs simultaneously inside
`download_one` (the `Streaming` state). -/
theorem streaming_at_most_workers (k m : Nat) (st : PoolState)
    (h : PoolReach k m st) : st.streaming ≤ k := by
  have hinv : st.streaming + st.permits = k := by
    induction h with
    | init => simp
    | step _ hs ih => cases hs <;> simp_all <;> omega
  omega

/-- Witness for C9: two workers, five jobs, one acquisition. -/
theorem streaming_at_most_workers_witness :
    PoolState.streaming ⟨4, 1, 0, 1⟩ ≤ 2 :=
  streaming_at_most_workers 2 5 _
    (PoolReach.step PoolReach.init (PoolStep.acquire 4 0 0 1))

/-- Claim C1: a job resuming at offset `have > 0` whose ranged request is
answered with a full (status 200) response restarts the local file from
byte 0 (truncating mode: the final file is exactly the new response body)
and removes the `have` bytes previously credited from both counters: the
per-job counter (set to `have` when the range was requested) is reset to 0
and then counts only the new bytes, and the run-wide counter's `+have`
credit is cancelled by the `-have` rollback, so its net movement is exactly
the new bytes. -/
theorem resume_full_response_restart (srv : Nat → AttemptResult) (tid : Bool)
    (lf : List Nat) (r k : Nat) (chunks : List (List Nat))
    (hpos : 0 < lf.length) (hlt : lf.length < r)
    (hsrv : srv 0 = AttemptResult.resp 200 chunks false) :
    download_one srv false tid (some lf) (some r) (k + 1) =
      ⟨some chunks.join, (chunks.map List.length).sum,
        (if tid then ((chunks.map List.length).sum : Int) else 0),
        some lf.length, JobOutcome.completed⟩ := by
  have hnd : needs_download ((some lf).map List.length) (some r) =
      (true, lf.length) := by
    simp [needs_download, Nat.not_le.mpr hlt]
  unfold download_one
  rw [hnd]
  simp only [Bool.not_true, Bool.false_eq_true, if_false, hpos, if_pos]
  rw [downloadLoop, hsrv]
  simp only [attemptRun]
  rw [if_neg (by omega)]
  simp only [hpos, and_true, true_and]
  norm_num
  rw [writeChunks_no_shutdown]
  simp only [List.nil_append, Nat.zero_add]
  cases tid <;> simp <;> omega

/-- Witness for C1 at concrete inputs: resuming at offset 2, the server
answers 200 with body `[1,2],[3]`; the file is restarted to `[1,2,3]` and
both counters end at 3 (the 2-byte resume credit removed). -/
theorem resume_full_response_restart_witness :
    download_one (fun _ => AttemptResult.resp 200 [[1, 2], [3]] false) false true
      (some [10, 11]) (some 6) 4 =
      ⟨some [1, 2, 3], 3, 3, some 2, JobOutcome.completed⟩ :=
  resume_full_response_restart _ true [10, 11] 6 3 [[1, 2], [3]]
    (by decide) (by decide) rfl

/-- Claim C4 (code bug): on a resumed transfer (offset 2 of a 6-byte
artifact) whose first 206 attempt dies mid-stream after re-serving bytes
2-3, the retry's 206 stream (which restarts at the original offset 2) is
appended to the already-grown file: bytes 12,13 are written twice and the
job still reports `completed`, leaving a corrupt 8-byte file instead of the
6-byte artifact. -/
theorem resumed_retry_duplicates_bytes :
    download_one c4srv false true (some [10, 11]) (some 6) 4 =
      ⟨some [10, 11, 12, 13, 12, 13, 14, 15], 8, 8, some 2,
        JobOutcome.completed⟩ ∧
    (download_one c4srv false true (some [10, 11]) (some 6) 4).file ≠
      some [10, 11, 12, 13, 14, 15] := by
  decide

/-- Claim C6 counterexample: at the valid `YYYYMMDD` pair
(99991231, 99991230) with start > end, the resolver raises an uncaught
`OverflowError` (incrementing past `datetime.max` after appending the last
date) in both argument orders, instead of returning the two-date list the
claim promises. -/
theorem generate_dates_overflow :
    generate_dates "99991231" "99991230" = Except.error () ∧
    generate_dates "99991230" "99991231" = Except.error () :=
  ⟨rfl, rfl⟩

/-- Claim C6 (amended): for valid `YYYYMMDD` dates with start > end whose
later date is not 9999-12-31 (where the date increment overflows), the
resolver returns the same result as for the swapped pair: a chronologically
ordered (strictly increasing, hence duplicate-free), contiguous
(consecutive-day) list of dates from the earlier to the later date
inclusive. -/
theorem generate_dates_order_insensitive (s e : String) (ds de : Date)
    (hs : pyStrptimeYmd s = some ds) (he : pyStrptimeYmd e = some de)
    (hlt : dateLtB de ds = true) (hmax : ds ≠ dmax) :
    generate_dates s e = generate_dates e s ∧
    ∃ dl : List Date,
      generate_dates s e = Except.ok (dl.map fmtDate) ∧
      dl.head? = some de ∧ dl.getLast? = some ds ∧
      List.Chain' (fun a b => b = nextDate a) dl ∧
      List.Pairwise (fun a b => dateLtB a b = true) dl := by
  have hvs : validDateB ds = true := pyStrptimeYmd_valid hs
  have hve : validDateB de = true := pyStrptimeYmd_valid he
  have hlt' : dateLtB ds de = false := dateLtB_asymm hlt
  have hse : generate_dates s e =
      dateLoopF ds (toRank ds + 2 - toRank de) de := by
    unfold generate_dates
    rw [hs, he]
    simp only [hlt, if_true]
  have hes : generate_dates e s =
      dateLoopF ds (toRank ds + 2 - toRank de) de := by
    unfold generate_dates
    rw [hs, he]
    simp only [hlt', Bool.false_eq_true, if_false]
  have hrank : toRank de ≤ toRank ds :=
    toRank_le_of_le hve hvs (dateLeB_of_lt hlt)
  obtain ⟨dl, hdl, hhead, hlast, hchain, hall⟩ :=
    dateLoopF_spec ds hvs hmax (toRank ds + 2 - toRank de) de hve
      (dateLeB_of_lt hlt) (by omega)
  refine ⟨by rw [hse, hes], dl, by rw [hse]; exact hdl, hhead, hlast, ?_, ?_⟩
  · exact List.Chain'.imp (fun a b hab => hab.1) hchain
  · have hchainLt : List.Chain' (fun a b => dateLtB a b = true) dl :=
      List.Chain'.imp
        (fun a b hab => by rw [hab.1]; exact dateLtB_next_self hab.2) hchain
    exact List.chain'_iff_pairwise.mp hchainLt

/-- Witness for C6 at the pair (20240103, 20240101). -/
theorem generate_dates_order_insensitive_witness :
    generate_dates "20240103" "20240101" = generate_dates "20240101" "20240103" ∧
    ∃ dl : List Date,
      generate_dates "20240103" "20240101" = Except.ok (dl.map fmtDate) ∧
      dl.head? = some ⟨2024, 1, 1⟩ ∧ dl.getLast? = some ⟨2024, 1, 3⟩ ∧
      List.Chain' (fun a b => b = nextDate a) dl ∧
      List.Pairwise (fun a b => dateLtB a b = true) dl :=
  generate_dates_order_insensitive "20240103" "20240101" ⟨2024, 1, 3⟩
    ⟨2024, 1, 1⟩ (by decide) (by decide) (by decide) (by decide)

/-- Claim C7: an unparseable literal date makes the date resolver fail (the
logged invalid-date-format error, surfaced as the empty date list) and the
run aborts with exit status 1 before any network fetch: the outcome is
`invalidDateExit` for every page oracle, so no page is ever requested. -/
theorem invalid_date_preflight (cfg : Config)
    (pages : String → Option (List String)) (s e : String)
    (h : pyStrptimeYmd s = none ∨ pyStrptimeYmd e = none) :
    generate_dates s e = Except.ok [] ∧
    mainDiscover cfg pages s e = RunExit.invalidDateExit := by
  have hg := generate_dates_parse_fail h
  refine ⟨hg, ?_⟩
  unfold mainDiscover
  rw [hg]

/-- Witness for C7: month 13 does not parse; the run exits before any
fetch, whatever the oracle would answer. -/
theorem invalid_date_preflight_witness :
    generate_dates "20241301" "20240101" = Except.ok [] ∧
    mainDiscover ⟨"https://r/", "d", none, "a", "u", "master_", 1⟩
      (fun _ => some ["master_x_newest/"]) "20241301" "20240101" =
      RunExit.invalidDateExit :=
  invalid_date_preflight _ _ _ _ (Or.inl (by decide))

end MsDownloader
